import Mathlib

/-!
Shallow embedding of src/function.h: a type-erased callable container
(class template function<R(Args...)>) with small-buffer optimization and a
manual vtable (type_descriptor with copy/move/invoke/destroy entries).

Modelling choices:
  The open family of concrete callable types F instantiated against one
  signature R(Args...) is abstracted as a structure Fam: an index type Ty
  (one index per concrete callable type), a state type St (the bytes of a
  callable object), a call function (possibly mutating, since the C++
  invoke entry calls the held callable as a mutable lvalue), the
  fits_small predicate from function.h line 20, and two failure oracles:
  copyFails t v models whether the copy constructor of T invoked on value
  v throws (returning the thrown exception), newFails t v models whether
  the heap allocation plus move construction in `new T(std::move(func))`
  throws.  On success, copy and move construction in the model transfer
  the state value unchanged (the value-semantics reading of well-behaved
  C++ copy/move constructors); the only modelled effect is failure.
  Argument packs Args... are modelled as a single type Arg.

  The process heap is a list of cells; a cell holds either a live payload
  (some (t, v)) or is freed (none).  Heap allocation appends (the fresh
  address is the old length), delete frees the cell in place.

  A descriptor pointer is modelled as Option Ty: none is the shared empty
  descriptor returned by get_empty_func_descriptor, some t is the
  per-type singleton returned by get_descriptor<T>.  Pointer identity of
  descriptors corresponds exactly to equality in Option Ty because the
  C++ registry returns the same static object on every call for a given T
  and distinct T have distinct statics.

  Reading the inline buffer with the wrong type (undefined behaviour in
  C++) yields the junk element of the family; that branch is never taken
  by well-formed states.

  Each C++ operation is a state-passing Lean function; an operation that
  can throw returns Except with the error plus the heap at throw time.
-/

namespace FunctionSpec

/-- The model of the open family of concrete callable types for a fixed
signature: indices, state, invocation behaviour, the fits_small predicate
and the failure oracles for copy construction and heap move construction. -/
structure Fam (Arg R : Type) where
  Ty : Type
  deq : DecidableEq Ty
  Err : Type
  St : Type
  junk : St
  call : Ty → St → Arg → R × St
  fits : Ty → Bool
  copyFails : Ty → St → Option Err
  newFails : Ty → St → Option Err

attribute [instance] Fam.deq

variable {Arg R : Type}

/-- The process heap: index = address, none = freed cell. -/
abbrev Fam.Heap (f : Fam Arg R) : Type := List (Option (f.Ty × f.St))

/-- Read a heap cell, interpreting it at type t (get<T> through a stored
pointer); junk on a freed cell, a wild address or a type mismatch. -/
def Fam.read (f : Fam Arg R) (h : f.Heap) (a : Nat) (t : f.Ty) : f.St :=
  match h[a]? with
  | some (some (u, v)) => if u = t then v else f.junk
  | _ => f.junk

/-- Overwrite a heap cell (mutation of the pointee by the held callable). -/
def Fam.write (f : Fam Arg R) (h : f.Heap) (a : Nat) (t : f.Ty) (v : f.St) :
    f.Heap :=
  h.set a (some (t, v))

/-- Release a heap cell (delete). -/
def Fam.freeCell (f : Fam Arg R) (h : f.Heap) (a : Nat) : f.Heap :=
  h.set a none

/-- Append a fresh live cell (new T); the fresh address is h.length. -/
def Fam.alloc (f : Fam Arg R) (h : f.Heap) (t : f.Ty) (v : f.St) : f.Heap :=
  h ++ [some (t, v)]

/-- The descriptor registry (function.h lines 37-60): get_descriptor<T>
returns the same singleton on every call with the same T. -/
def Fam.getDescriptor (f : Fam Arg R) (t : f.Ty) : Option f.Ty := some t

/-- The shared empty descriptor (get_empty_func_descriptor). -/
def Fam.emptyDescriptor (f : Fam Arg R) : Option f.Ty := none

/-- The error object thrown by the empty descriptor invoke entry
(bad_function_call, function.h line 54). -/
inductive CallErr : Type where
  | badFunctionCall : CallErr
deriving DecidableEq

/-- The inline buffer (container_t small) of a storage: either
indeterminate bytes, a callable constructed in place, or a stored
pointer value. -/
inductive Buf (f : Fam Arg R) : Type where
  | garbage : Buf f
  | inl (t : f.Ty) (v : f.St) : Buf f
  | addr (a : Nat) : Buf f

/-- storage<R, Args...> (function.h lines 118-159): the behaviour-table
pointer plus the inline buffer. -/
structure Storage (f : Fam Arg R) where
  desc : Option f.Ty
  buf : Buf f

variable {f : Fam Arg R}

/-- Default-constructed storage: desc = empty descriptor, buffer
uninitialized (storage constructor, function.h line 121). -/
def Storage.empty : Storage f :=
  { desc := none, buf := Buf.garbage }

/-- get<T> on the inline path: reinterpret the buffer bytes as T. -/
def Storage.readSmall (s : Storage f) (t : f.Ty) : f.St :=
  match s.buf with
  | Buf.inl u v => if u = t then v else f.junk
  | _ => f.junk

/-- get<T> on the heap path: the pointer value stored in the buffer bytes. -/
def Storage.readAddr (s : Storage f) : Nat :=
  match s.buf with
  | Buf.addr a => a
  | _ => 0

/-- The destroy entry (function.h lines 56-57 for the empty descriptor and
95-102 for a concrete type) dispatched on the descriptor d: in-place
destructor for the inline path, delete for the heap path, noop when empty. -/
def Desc.destroyOp (d : Option f.Ty) (h : f.Heap) (s : Storage f) :
    Storage f × f.Heap :=
  match d with
  | none => (s, h)
  | some t =>
    if f.fits t then ({ s with buf := Buf.garbage }, h)
    else (s, f.freeCell h s.readAddr)

/-- The copy entry (function.h lines 40-45 and 65-75) dispatched on the
descriptor d, with precondition dst empty.  A concrete type copy reads the
source payload, copy-constructs it (fallibly) into dst, then installs the
source descriptor on dst last; on failure everything is unchanged and the
payload exception propagates with the heap at throw time. -/
def Desc.copyOp (d : Option f.Ty) (h : f.Heap) (dst src : Storage f) :
    Except (f.Err × f.Heap) (Storage f × f.Heap) :=
  match d with
  | none => Except.ok (dst, h)
  | some t =>
    if f.fits t then
      match f.copyFails t (src.readSmall t) with
      | some e => Except.error (e, h)
      | none =>
        Except.ok ({ desc := src.desc, buf := Buf.inl t (src.readSmall t) }, h)
    else
      match f.copyFails t (f.read h src.readAddr t) with
      | some e => Except.error (e, h)
      | none =>
        Except.ok ({ desc := src.desc, buf := Buf.addr h.length },
                   f.alloc h t (f.read h src.readAddr t))

/-- The move entry (function.h lines 46-51 and 76-90) dispatched on the
descriptor d with distinct dst and src objects, precondition dst empty,
postcondition src empty.  Inline path: move-construct into dst, destroy
the source payload in place, copy the descriptor over, reset src to the
empty descriptor.  Heap path: transfer the pointer value, copy the
descriptor over, reset src to empty (the stale pointer bytes remain in
the source buffer exactly as in the C++ code). -/
def Desc.moveOp (d : Option f.Ty) (h : f.Heap) (dst src : Storage f) :
    Storage f × Storage f × f.Heap :=
  match d with
  | none => (dst, src, h)
  | some t =>
    if f.fits t then
      let v := src.readSmall t
      let p := Desc.destroyOp src.desc h src
      ({ dst with buf := Buf.inl t v, desc := p.1.desc },
       { p.1 with desc := none }, p.2)
    else
      ({ dst with buf := Buf.addr src.readAddr, desc := src.desc },
       { src with desc := none }, h)

/-- The invoke entry (function.h lines 52-55 and 91-94) dispatched on the
descriptor d: the empty descriptor throws bad_function_call, a concrete
type calls the held callable as a mutable lvalue, writing the mutated
state back to the inline buffer or the heap cell. -/
def Desc.invokeOp (d : Option f.Ty) (h : f.Heap) (s : Storage f) (a : Arg) :
    (Except CallErr R) × Storage f × f.Heap :=
  match d with
  | none => (Except.error CallErr.badFunctionCall, s, h)
  | some t =>
    if f.fits t then
      let p := f.call t (s.readSmall t) a
      (Except.ok p.1, { s with buf := Buf.inl t p.2 }, h)
    else
      let p := f.call t (f.read h s.readAddr t) a
      (Except.ok p.1, s, f.write h s.readAddr t p.2)

/-- The move entry executed with dst and src the same object (reached by
storage::swap when called on aliased operands): the statement sequence of
the move lambda with this aliasing applied.  In swapSelf this is only ever
dispatched through the empty descriptor (a noop). -/
def Desc.moveAliasedOp (d : Option f.Ty) (h : f.Heap) (s : Storage f) :
    Storage f × f.Heap :=
  match d with
  | none => (s, h)
  | some t =>
    if f.fits t then
      let s1 : Storage f := { s with buf := Buf.inl t (s.readSmall t) }
      let p := Desc.destroyOp s1.desc h s1
      ({ p.1 with desc := none }, p.2)
    else
      ({ s with buf := Buf.addr s.readAddr, desc := none }, h)

/-- storage::swap (function.h lines 145-151) on distinct operands: move
this into a fresh empty temporary, move other into this, move the
temporary into other; the temporary ends empty so its destructor is a
noop. -/
def Storage.swapOp (h : f.Heap) (a b : Storage f) :
    Storage f × Storage f × f.Heap :=
  let r1 := Desc.moveOp a.desc h Storage.empty a
  let r2 := Desc.moveOp b.desc r1.2.2 r1.2.1 b
  let r3 := Desc.moveOp r1.1.desc r2.2.2 r2.2.1 r1.1
  (r2.1, r3.1, r3.2.2)

/-- storage::swap called with other aliased to this (c.swap(c)): the same
three-move sequence where the second move has dst and src the same
object. -/
def Storage.swapSelf (h : f.Heap) (s : Storage f) : Storage f × f.Heap :=
  let r1 := Desc.moveOp s.desc h Storage.empty s
  let r2 := Desc.moveAliasedOp r1.2.1.desc r1.2.2 r1.2.1
  let r3 := Desc.moveOp r1.1.desc r2.2 r2.1 r1.1
  (r3.1, r3.2.2)

/-- function::apply (function.h lines 200-202): dispatch invoke through
the own descriptor.  operator() forwards here. -/
def Storage.apply (h : f.Heap) (s : Storage f) (a : Arg) :
    (Except CallErr R) × Storage f × f.Heap :=
  Desc.invokeOp s.desc h s a

namespace Fn

/-- type_descriptor::init called from function(F f) (function.h lines
107-115 and 195-198): install get_descriptor<T> on the storage FIRST,
then construct the payload; placement move construction on the inline
path is nothrow by the fits_small eligibility rule, but the heap path
new T(std::move(func)) may throw, in which case the error escapes with
the already-descriptor-bearing, payload-free storage. -/
def fromCallable (h : f.Heap) (t : f.Ty) (v : f.St) :
    Except (f.Err × Storage f × f.Heap) (Storage f × f.Heap) :=
  let s0 : Storage f := { desc := f.getDescriptor t, buf := Buf.garbage }
  if f.fits t then
    Except.ok ({ s0 with buf := Buf.inl t v }, h)
  else
    match f.newFails t v with
    | some e => Except.error (e, s0, h)
    | none =>
      Except.ok ({ s0 with buf := Buf.addr h.length }, f.alloc h t v)

/-- function(function const& other) (function.h lines 169-171):
default-construct, then dispatch the copy entry through the descriptor of
other with the fresh empty storage as destination. -/
def copyCtor (h : f.Heap) (other : Storage f) :
    Except (f.Err × f.Heap) (Storage f × f.Heap) :=
  Desc.copyOp other.desc h Storage.empty other

/-- function(function&& other) (function.h lines 173-175):
default-construct, then dispatch the move entry through the descriptor of
other; returns (new container, moved-from other, heap). -/
def moveCtor (h : f.Heap) (other : Storage f) :
    Storage f × Storage f × f.Heap :=
  Desc.moveOp other.desc h Storage.empty other

/-- operator=(function const& other) on distinct objects (function.h
lines 177-184, past the self check): function tmp(other); swap(tmp);
the temporary, now holding the old payload of self, is destroyed at scope
end.  On a copy failure the error escapes before self or the heap is
touched. -/
def assignCopy (h : f.Heap) (self other : Storage f) :
    Except (f.Err × f.Heap) (Storage f × f.Heap) :=
  match copyCtor h other with
  | Except.error eh => Except.error eh
  | Except.ok th =>
    let q := Storage.swapOp th.2 self th.1
    let d := Desc.destroyOp q.2.1.desc q.2.2 q.2.1
    Except.ok (q.1, d.2)

/-- operator=(function&& other) on distinct objects (function.h lines
186-193, past the self check): function tmp(std::move(other)); swap(tmp);
destroy the temporary; returns (new self, moved-from other, heap). -/
def assignMove (h : f.Heap) (self other : Storage f) :
    Storage f × Storage f × f.Heap :=
  let m := moveCtor h other
  let q := Storage.swapOp m.2.2 self m.1
  let d := Desc.destroyOp q.2.1.desc q.2.2 q.2.1
  (q.1, m.2.1, d.2)

/-- operator=(function const&) including the self check this == &other
(function.h lines 178-180); the flag same models the result of the
pointer comparison, true exactly for self-assignment. -/
def assignCopyChecked (same : Bool) (h : f.Heap) (self other : Storage f) :
    Except (f.Err × f.Heap) (Storage f × f.Heap) :=
  if same then Except.ok (self, h) else assignCopy h self other

/-- operator=(function&&) including the self check (function.h lines
187-189). -/
def assignMoveChecked (same : Bool) (h : f.Heap) (self other : Storage f) :
    Storage f × Storage f × f.Heap :=
  if same then (self, other, h) else assignMove h self other

/-- function::target<F> (function.h lines 204-216): identity-compare the
stored descriptor against get_descriptor<F>; on a match return the stored
value reinterpreted at F, else a null result. -/
def target (h : f.Heap) (s : Storage f) (t : f.Ty) : Option f.St :=
  if s.desc = f.getDescriptor t then
    some (if f.fits t then s.readSmall t else f.read h s.readAddr t)
  else none

/-- explicit operator bool (function.h lines 222-224): the stored
descriptor differs from the empty descriptor. -/
def toBool (s : Storage f) : Bool :=
  decide (s.desc ≠ f.emptyDescriptor)

/-- function::swap (function.h lines 228-230) on distinct operands:
delegates to storage::swap. -/
def swapFn (h : f.Heap) (a b : Storage f) :
    Storage f × Storage f × f.Heap :=
  Storage.swapOp h a b

end Fn

/-- Well-formedness of a storage against a heap: the invariant of spec
section 3.  Empty descriptor: any buffer bytes.  Concrete descriptor:
the buffer holds a payload of exactly that type on the inline path, or a
pointer to a live heap cell of exactly that type on the heap path. -/
def Storage.WF (h : f.Heap) (s : Storage f) : Prop :=
  match s.desc with
  | none => True
  | some t =>
    if f.fits t then ∃ v, s.buf = Buf.inl t v
    else ∃ a, s.buf = Buf.addr a ∧ ∃ v, h[a]? = some (some (t, v))

/-- The heap address owned by a storage, when its payload is heap-stored. -/
def Storage.ownAddr (s : Storage f) : Option Nat :=
  match s.desc with
  | none => none
  | some t => if f.fits t then none else some s.readAddr

/-- Two containers own no common heap cell (unique ownership, spec
section 5). -/
def DisjointOwn (a b : Storage f) : Prop :=
  ∀ x, a.ownAddr = some x → b.ownAddr = some x → False

/-- The observable payload of a storage: its concrete type and current
state value, read through its own descriptor. -/
def Storage.view (h : f.Heap) (s : Storage f) : Option (f.Ty × f.St) :=
  match s.desc with
  | none => none
  | some t =>
    some (t, if f.fits t then s.readSmall t else f.read h s.readAddr t)

/-- The payload value a storage currently holds at type t, read through
the small or heap path as target<F> and the descriptor entries do. -/
def Storage.payload (h : f.Heap) (s : Storage f) (t : f.Ty) : f.St :=
  if f.fits t then s.readSmall t else f.read h s.readAddr t

/-- A concrete family for witnesses: two concrete callable types against
the signature Nat -> Nat.  Index true is inline-eligible and adds its
counter state to the argument; index false is heap-stored, multiplies and
adds one.  Every invocation bumps the counter state, so both callables
are stateful. -/
@[reducible] def demoFam : Fam Nat Nat where
  Ty := Bool
  deq := inferInstance
  Err := Unit
  St := Nat
  junk := 0
  call := fun t s a => (if t then s + a else s * a + 1, s + 1)
  fits := fun t => t
  copyFails := fun _ _ => none
  newFails := fun _ _ => none

/-- A family with one heap-stored concrete type whose construction into
the heap fails: models a large callable whose move constructor throws, or
an allocation failure, inside new T(std::move(func)). -/
@[reducible] def throwFam : Fam Nat Nat where
  Ty := Unit
  deq := inferInstance
  Err := Unit
  St := Nat
  junk := 0
  call := fun _ s a => (s + a, s)
  fits := fun _ => false
  copyFails := fun _ _ => none
  newFails := fun _ _ => some ()

/-- A family with one inline-eligible concrete type whose copy
constructor always throws the error 7. -/
@[reducible] def failFam : Fam Nat Nat where
  Ty := Unit
  deq := inferInstance
  Err := Nat
  St := Nat
  junk := 0
  call := fun _ s a => (s + a, s)
  fits := fun _ => true
  copyFails := fun _ _ => some 7
  newFails := fun _ _ => none

/-! Heap facts used throughout: reads are unaffected by allocation below
the fresh address and by writes or frees at a different address. -/

theorem Fam.read_alloc_self (h : f.Heap) (t : f.Ty) (v : f.St) :
    f.read (f.alloc h t v) h.length t = v := by
  simp [Fam.read, Fam.alloc, List.getElem?_concat_length]

theorem Fam.read_alloc_lt (h : f.Heap) (t u : f.Ty) (v : f.St) (a : Nat)
    (ha : a < h.length) :
    f.read (f.alloc h t v) a u = f.read h a u := by
  simp [Fam.read, Fam.alloc, List.getElem?_append_left ha]

theorem Fam.read_write_ne (h : f.Heap) (a b : Nat) (t u : f.Ty) (v : f.St)
    (hne : a ≠ b) : f.read (f.write h a t v) b u = f.read h b u := by
  simp [Fam.read, Fam.write, List.getElem?_set_ne hne]

theorem Fam.read_free_ne (h : f.Heap) (a b : Nat) (u : f.Ty)
    (hne : a ≠ b) : f.read (f.freeCell h a) b u = f.read h b u := by
  simp [Fam.read, Fam.freeCell, List.getElem?_set_ne hne]

theorem Fam.lt_length_of_cell (h : f.Heap) (a : Nat)
    (c : Option (f.Ty × f.St)) (hc : h[a]? = some c) : a < h.length := by
  by_contra hcon
  push_neg at hcon
  rw [List.getElem?_eq_none_iff.mpr hcon] at hc
  cases hc

/-! Observation lemmas: invocation results, boolean conversion and target
are all determined by the view of a storage. -/

theorem Storage.apply_fst (h : f.Heap) (s : Storage f) (a : Arg) :
    (Storage.apply h s a).1 =
      (s.view h).elim (Except.error CallErr.badFunctionCall)
        (fun p => Except.ok (f.call p.1 p.2 a).1) := by
  rcases s with ⟨d, b⟩
  cases d with
  | none => rfl
  | some t =>
    by_cases hf : f.fits t <;>
      simp [Storage.apply, Desc.invokeOp, Storage.view, hf]

theorem Fn.toBool_eq (h : f.Heap) (s : Storage f) :
    Fn.toBool s = (s.view h).isSome := by
  rcases s with ⟨d, b⟩
  cases d <;> simp [Fn.toBool, Storage.view, Fam.emptyDescriptor]

theorem Fn.target_eq (h : f.Heap) (s : Storage f) (t : f.Ty) :
    Fn.target h s t =
      (s.view h).bind (fun p => if p.1 = t then some p.2 else none) := by
  rcases s with ⟨d, b⟩
  cases d with
  | none => rfl
  | some u =>
    by_cases hu : u = t
    · subst hu
      simp [Fn.target, Storage.view, Fam.getDescriptor]
    · simp [Fn.target, Storage.view, Fam.getDescriptor, hu]

theorem Storage.view_freeCell (h : f.Heap) (s : Storage f) (x : Nat)
    (hne : s.ownAddr ≠ some x) :
    s.view (f.freeCell h x) = s.view h := by
  rcases s with ⟨d, b⟩
  cases d with
  | none => rfl
  | some t =>
    by_cases hf : f.fits t
    · simp [Storage.view, hf]
    · have hxx : x ≠ (Storage.mk (f := f) (some t) b).readAddr := by
        intro hx
        exact hne (by simp [Storage.ownAddr, hf, hx])
      simp [Storage.view, hf, Fam.read_free_ne h x _ t hxx]

theorem Storage.view_of_desc_none (h : f.Heap) (s : Storage f)
    (hd : s.desc = none) : s.view h = none := by
  rcases s with ⟨d, b⟩
  simp only [Storage.view]
  simp at hd
  simp [hd]

/-- Destroying one storage through its own descriptor does not change the
view of another storage owning a different heap cell. -/
theorem Storage.view_destroy_other (h : f.Heap) (victim s : Storage f)
    (hne : ∀ x, victim.ownAddr = some x → s.ownAddr ≠ some x) :
    s.view (Desc.destroyOp victim.desc h victim).2 = s.view h := by
  rcases victim with ⟨d, b⟩
  cases d with
  | none => rfl
  | some u =>
    by_cases hf : f.fits u
    · simp [Desc.destroyOp, hf]
    · simp only [Desc.destroyOp, hf, if_false]
      exact Storage.view_freeCell h s _
        (hne _ (by simp [Storage.ownAddr, hf]))

/-- The master lemma for the move entry dispatched through the descriptor
of the source, as used by move construction and by storage::swap: the
heap is untouched, the destination takes over the view, well-formedness
and owned address of the source, and the source ends with the empty
descriptor. -/
theorem moveOp_spec (h : f.Heap) (dst s : Storage f)
    (hd : dst.desc = none) (hwf : s.WF h) :
    (Desc.moveOp s.desc h dst s).2.2 = h ∧
    ((Desc.moveOp s.desc h dst s).1).view h = s.view h ∧
    ((Desc.moveOp s.desc h dst s).1).WF h ∧
    ((Desc.moveOp s.desc h dst s).1).ownAddr = s.ownAddr ∧
    ((Desc.moveOp s.desc h dst s).2.1).desc = none := by
  rcases s with ⟨d, b⟩
  cases d with
  | none =>
    refine ⟨rfl, ?_, ?_, ?_, rfl⟩
    · simp [Desc.moveOp, Storage.view, hd]
    · simp [Desc.moveOp, Storage.WF, hd]
    · simp [Desc.moveOp, Storage.ownAddr, hd]
  | some t =>
    by_cases hf : f.fits t
    · simp only [Storage.WF, hf, if_true] at hwf
      obtain ⟨v, rfl⟩ := hwf
      refine ⟨?_, ?_, ?_, ?_, ?_⟩ <;>
        simp [Desc.moveOp, Desc.destroyOp, Storage.view, Storage.WF,
              Storage.ownAddr, Storage.readSmall, hf]
    · simp only [Storage.WF, hf] at hwf
      obtain ⟨a, rfl, v, hc⟩ := hwf
      refine ⟨?_, ?_, ?_, ?_, ?_⟩
      · simp [Desc.moveOp, hf]
      · simp [Desc.moveOp, Storage.view, Storage.readAddr, hf]
      · simp only [Desc.moveOp, hf]
        simp [Storage.WF, Storage.readAddr, hf]
        exact ⟨v, hc⟩
      · simp [Desc.moveOp, Storage.ownAddr, Storage.readAddr, hf]
      · simp [Desc.moveOp, hf]

/-- The master lemma for storage::swap on distinct well-formed operands:
the heap is untouched and the two sides exchange view, well-formedness
and owned address. -/
theorem swapOp_spec (h : f.Heap) (a b : Storage f)
    (ha : a.WF h) (hb : b.WF h) :
    (Storage.swapOp h a b).2.2 = h ∧
    ((Storage.swapOp h a b).1).view h = b.view h ∧
    ((Storage.swapOp h a b).1).WF h ∧
    ((Storage.swapOp h a b).1).ownAddr = b.ownAddr ∧
    ((Storage.swapOp h a b).2.1).view h = a.view h ∧
    ((Storage.swapOp h a b).2.1).WF h ∧
    ((Storage.swapOp h a b).2.1).ownAddr = a.ownAddr := by
  obtain ⟨e1, v1, w1, o1, d1⟩ := moveOp_spec h Storage.empty a rfl ha
  simp only [Storage.swapOp]
  rw [e1]
  obtain ⟨e2, v2, w2, o2, d2⟩ :=
    moveOp_spec h (Desc.moveOp a.desc h Storage.empty a).2.1 b d1 hb
  rw [e2]
  obtain ⟨e3, v3, w3, o3, d3⟩ :=
    moveOp_spec h
      (Desc.moveOp b.desc h (Desc.moveOp a.desc h Storage.empty a).2.1 b).2.1
      (Desc.moveOp a.desc h Storage.empty a).1 d2 w1
  exact ⟨e3, v2, w2, o2, v3.trans v1, w3, o3.trans o1⟩

/-! The claims. -/

/-- C1: Round trip of identity: for every callable value of a concrete
type (inline-eligible or heap-stored), constructing a container from it
and invoking the container returns the same result as calling the value
directly, for every argument. -/
theorem c1_round_trip (f : Fam Arg R) (h : f.Heap) (t : f.Ty) (v : f.St)
    (a : Arg) (s : Storage f) (h2 : f.Heap)
    (hinit : Fn.fromCallable h t v = Except.ok (s, h2)) :
    (Storage.apply h2 s a).1 = Except.ok (f.call t v a).1 := by
  by_cases hf : f.fits t
  · simp only [Fn.fromCallable, hf, if_true, Except.ok.injEq,
               Prod.mk.injEq] at hinit
    obtain ⟨rfl, rfl⟩ := hinit.symm
    simp [Storage.apply, Desc.invokeOp, Storage.readSmall,
          Fam.getDescriptor, hf]
  · cases hnf : f.newFails t v with
    | some e =>
      simp only [Fn.fromCallable, hf, if_false, hnf] at hinit
      cases hinit
    | none =>
      simp only [Fn.fromCallable, hf, if_false, hnf, Except.ok.injEq,
                 Prod.mk.injEq] at hinit
      obtain ⟨rfl, rfl⟩ := hinit.symm
      simp [Storage.apply, Desc.invokeOp, Storage.readAddr,
            Fam.getDescriptor, hf, Fam.read_alloc_self]

/-- C1 witness: a small callable and a heap callable, each stored then
invoked, agree with direct invocation. -/
theorem c1_round_trip_witness :
    (Storage.apply ([] : demoFam.Heap)
        { desc := some true, buf := Buf.inl true 5 } 3).1 =
      Except.ok 8 ∧
    (Storage.apply ([some (false, 5)] : demoFam.Heap)
        { desc := some false, buf := Buf.addr 0 } 3).1 =
      Except.ok 16 := by
  constructor
  · exact c1_round_trip demoFam [] true 5 3 _ _ rfl
  · exact c1_round_trip demoFam [] false 5 3 _ _ rfl

/-- C2: Empty invocation: a default-constructed container raises the
empty-invocation error when invoked and converts to false; the other
operations on an empty container do not fail (copy, move and swap of
empty containers succeed, target is null). -/
theorem c2_empty_container (f : Fam Arg R) (h : f.Heap) (a : Arg) :
    (Storage.apply h (Storage.empty : Storage f) a).1 =
      Except.error CallErr.badFunctionCall ∧
    Fn.toBool (Storage.empty : Storage f) = false ∧
    Fn.copyCtor h (Storage.empty : Storage f) =
      Except.ok (Storage.empty, h) ∧
    Fn.moveCtor h (Storage.empty : Storage f) =
      (Storage.empty, Storage.empty, h) ∧
    Storage.swapOp h (Storage.empty : Storage f) Storage.empty =
      (Storage.empty, Storage.empty, h) ∧
    (∀ t : f.Ty, Fn.target h (Storage.empty : Storage f) t = none) := by
  refine ⟨rfl, rfl, rfl, rfl, rfl, ?_⟩
  intro t
  simp [Fn.target, Fam.getDescriptor, Storage.empty]

/-- C3: Move empties source: after move construction or move assignment
from c1 (small-eligible or heap-stored), c1 has the empty descriptor, is
boolean-false, raises the empty-invocation error, is indistinguishable
from a default-constructed container under target, and the destination
produces the invocation results c1 produced before the move. -/
theorem c3_move_empties_source (f : Fam Arg R) (h : f.Heap)
    (c1 self : Storage f) (hw1 : c1.WF h) (hws : self.WF h)
    (hdj : DisjointOwn self c1) :
    (Fn.moveCtor h c1).2.2 = h ∧
    ((Fn.moveCtor h c1).2.1).desc = f.emptyDescriptor ∧
    Fn.toBool ((Fn.moveCtor h c1).2.1) = false ∧
    (∀ a : Arg, (Storage.apply h ((Fn.moveCtor h c1).2.1) a).1 =
      Except.error CallErr.badFunctionCall) ∧
    (∀ t : f.Ty, Fn.target h ((Fn.moveCtor h c1).2.1) t = none) ∧
    (∀ a : Arg, (Storage.apply h ((Fn.moveCtor h c1).1) a).1 =
      (Storage.apply h c1 a).1) ∧
    ((Fn.assignMove h self c1).2.1).desc = f.emptyDescriptor ∧
    (∀ a : Arg,
      (Storage.apply (Fn.assignMove h self c1).2.2
        ((Fn.assignMove h self c1).1) a).1 = (Storage.apply h c1 a).1) := by
  obtain ⟨e1, v1, w1, o1, d1⟩ := moveOp_spec h Storage.empty c1 rfl hw1
  simp only [Fn.moveCtor, Fn.assignMove]
  rw [e1]
  obtain ⟨eq1, vq1, wq1, oq1, vq2, wq2, oq2⟩ :=
    swapOp_spec h self (Desc.moveOp c1.desc h Storage.empty c1).1 hws w1
  rw [eq1]
  have hvnone :
      ((Desc.moveOp c1.desc h Storage.empty c1).2.1).view h = none :=
    Storage.view_of_desc_none h _ d1
  refine ⟨rfl, ?_, ?_, ?_, ?_, ?_, ?_, ?_⟩
  · simpa [Fam.emptyDescriptor] using d1
  · rw [Fn.toBool_eq h, hvnone]
    rfl
  · intro a
    rw [Storage.apply_fst, hvnone]
    rfl
  · intro t
    rw [Fn.target_eq, hvnone]
    rfl
  · intro a
    rw [Storage.apply_fst, Storage.apply_fst, v1]
  · simpa [Fam.emptyDescriptor] using d1
  · intro a
    rw [Storage.apply_fst, Storage.apply_fst]
    have hview :
        (Storage.swapOp h self
            (Desc.moveOp c1.desc h Storage.empty c1).1).1.view
          (Desc.destroyOp
            (Storage.swapOp h self
              (Desc.moveOp c1.desc h Storage.empty c1).1).2.1.desc h
            (Storage.swapOp h self
              (Desc.moveOp c1.desc h Storage.empty c1).1).2.1).2 =
        (Storage.swapOp h self
            (Desc.moveOp c1.desc h Storage.empty c1).1).1.view h := by
      refine Storage.view_destroy_other h _ _ ?_
      intro x hx hy
      exact hdj x (oq2 ▸ hx) (o1 ▸ oq1 ▸ hy)
    rw [hview, vq1, v1]

/-- C3 witness: moving out of a heap-stored container empties it and the
destination reproduces its results; the move-assignment destination also
reproduces them. -/
theorem c3_witness :
    ((Fn.moveCtor [some (false, 5)]
        ({ desc := some false, buf := Buf.addr 0 } : Storage demoFam)).2.1).desc
      = demoFam.emptyDescriptor ∧
    (Storage.apply [some (false, 5)]
        ((Fn.moveCtor [some (false, 5)]
          ({ desc := some false, buf := Buf.addr 0 } : Storage demoFam)).1) 3).1
      = (Storage.apply [some (false, 5)]
          ({ desc := some false, buf := Buf.addr 0 } : Storage demoFam) 3).1 := by
  have hc := c3_move_empties_source demoFam [some (false, 5)]
    { desc := some false, buf := Buf.addr 0 }
    { desc := some true, buf := Buf.inl true 2 }
    ⟨0, rfl, 5, rfl⟩ ⟨2, rfl⟩ (fun x hx _ => Option.noConfusion hx)
  exact ⟨hc.2.1, hc.2.2.2.2.2.1 3⟩

/-- C4: Copy independence: copy construction leaves the source unchanged
(same invocation results before and after), gives the copy the same
concrete type and initial behaviour, and the two payloads are
independently owned: invoking (and thereby mutating) either container
does not change the invocation results of the other, including for
heap-stored payloads, which are deep-copied into a fresh cell. -/
theorem c4_copy_independence (f : Fam Arg R) (h : f.Heap)
    (c1 c2 : Storage f) (h2 : f.Heap) (hwf : c1.WF h)
    (hcp : Fn.copyCtor h c1 = Except.ok (c2, h2)) :
    c2.desc = c1.desc ∧
    (∀ a : Arg, (Storage.apply h2 c1 a).1 = (Storage.apply h c1 a).1) ∧
    (∀ a : Arg, (Storage.apply h2 c2 a).1 = (Storage.apply h c1 a).1) ∧
    (∀ a b : Arg,
      (Storage.apply (Storage.apply h2 c2 b).2.2 c1 a).1 =
        (Storage.apply h2 c1 a).1) ∧
    (∀ a b : Arg,
      (Storage.apply (Storage.apply h2 c1 b).2.2 c2 a).1 =
        (Storage.apply h2 c2 a).1) := by
  rcases c1 with ⟨d, b⟩
  cases d with
  | none =>
    simp only [Fn.copyCtor, Desc.copyOp, Except.ok.injEq,
               Prod.mk.injEq] at hcp
    obtain ⟨rfl, rfl⟩ := hcp
    exact ⟨rfl, fun a => rfl, fun a => rfl, fun a b => rfl, fun a b => rfl⟩
  | some t =>
    by_cases hf : f.fits t
    · simp only [Storage.WF, hf, if_true] at hwf
      obtain ⟨v, rfl⟩ := hwf
      rcases hcf : f.copyFails t v with _ | e
      · simp only [Fn.copyCtor, Desc.copyOp, hf, if_true, Storage.readSmall,
                   if_pos rfl, hcf, Except.ok.injEq, Prod.mk.injEq] at hcp
        obtain ⟨rfl, rfl⟩ := hcp
        refine ⟨rfl, fun a => rfl, fun a => ?_, fun a b => ?_,
                fun a b => ?_⟩ <;>
          simp [Storage.apply, Desc.invokeOp, Storage.readSmall, hf]
      · simp only [Fn.copyCtor, Desc.copyOp, hf, if_true, Storage.readSmall,
                   if_pos rfl, hcf] at hcp
        cases hcp
    · simp only [Storage.WF, hf] at hwf
      obtain ⟨a0, rfl, v, hc⟩ := hwf
      have ha0 : a0 < h.length := Fam.lt_length_of_cell h a0 _ hc
      have hr : f.read h a0 t = v := by simp [Fam.read, hc]
      rcases hcf : f.copyFails t v with _ | e
      · simp only [Fn.copyCtor, Desc.copyOp, hf, if_false, Storage.readAddr,
                   hr, hcf, Except.ok.injEq, Prod.mk.injEq] at hcp
        obtain ⟨rfl, rfl⟩ := hcp
        have hne1 : a0 ≠ h.length := Nat.ne_of_lt ha0
        have hrA : f.read (f.alloc h t v) a0 t = v := by
          rw [Fam.read_alloc_lt _ _ _ _ _ ha0]
          exact hr
        have hrB : f.read (f.alloc h t v) h.length t = v :=
          Fam.read_alloc_self h t v
        have hw1 : ∀ w : f.St,
            f.read (f.write (f.alloc h t v) h.length t w) a0 t = v := by
          intro w
          rw [Fam.read_write_ne _ _ _ _ _ _ (Ne.symm hne1)]
          exact hrA
        have hw2 : ∀ w : f.St,
            f.read (f.write (f.alloc h t v) a0 t w) h.length t = v := by
          intro w
          rw [Fam.read_write_ne _ _ _ _ _ _ hne1]
          exact hrB
        refine ⟨rfl, fun a => ?_, fun a => ?_, fun a b => ?_,
                fun a b => ?_⟩ <;>
          simp [Storage.apply, Desc.invokeOp, Storage.readAddr, hf,
                hr, hrA, hrB, hw1, hw2]
      · simp only [Fn.copyCtor, Desc.copyOp, hf, if_false, Storage.readAddr,
                   hr, hcf] at hcp
        cases hcp

/-- C4 witness: after copying a heap-stored container, invoking the copy
(mutating its counter) leaves the invocation results of the original
unchanged. -/
theorem c4_witness :
    (Storage.apply
        (Storage.apply [some (false, 5), some (false, 5)]
          ({ desc := some false, buf := Buf.addr 1 } : Storage demoFam) 3).2.2
        ({ desc := some false, buf := Buf.addr 0 } : Storage demoFam) 2).1 =
      (Storage.apply [some (false, 5), some (false, 5)]
        ({ desc := some false, buf := Buf.addr 0 } : Storage demoFam) 2).1 := by
  have hc := c4_copy_independence demoFam [some (false, 5)]
    { desc := some false, buf := Buf.addr 0 }
    { desc := some false, buf := Buf.addr 1 }
    [some (false, 5), some (false, 5)]
    ⟨0, rfl, 5, rfl⟩ rfl
  exact hc.2.2.2.1 2 3

/-- C5: evaluation of construction from a callable at the failing input.
The claim states the descriptor and the payload bytes are never
mismatched, including when construction from a callable fails partway.
type_descriptor::init installs get_descriptor<T> on the storage BEFORE
constructing the payload, so when the heap construction
new T(std::move(func)) throws (modelled by newFails), the escaping
storage carries the concrete descriptor over a payload-free buffer,
violating the invariant; the storage destructor then interprets the
garbage bytes through that descriptor.  The first conjunct evaluates the
code at the failing input; the second states the escaping storage
violates the invariant. -/
theorem c5_init_failure_breaks_invariant :
    Fn.fromCallable ([] : throwFam.Heap) () 7 =
      Except.error ((), { desc := some (), buf := Buf.garbage }, []) ∧
    ¬ Storage.WF ([] : throwFam.Heap)
        { desc := some (), buf := Buf.garbage } := by
  refine ⟨rfl, ?_⟩
  intro hw
  simp only [Storage.WF] at hw
  obtain ⟨a, hb, -⟩ := hw
  cases hb

/-- C6: Target identity: target<F> is present exactly when the stored
descriptor is get_descriptor<F> (pointer identity); get_descriptor is a
per-type constant and injective, so a container holding a different
concrete type, a moved-from container and a default container all give a
null target. -/
theorem c6_target_identity (f : Fam Arg R) (h : f.Heap) (s : Storage f)
    (t : f.Ty) :
    ((Fn.target h s t).isSome = true ↔ s.desc = f.getDescriptor t) ∧
    (∀ u : f.Ty, f.getDescriptor u = f.getDescriptor t ↔ u = t) ∧
    (∀ u : f.Ty, s.desc = f.getDescriptor u → u ≠ t →
      Fn.target h s t = none) ∧
    (∀ u : f.Ty, Fn.target h ((Fn.moveCtor h s).2.1) u = none) ∧
    Fn.target h (Storage.empty : Storage f) t = none := by
  refine ⟨?_, ?_, ?_, ?_, ?_⟩
  · by_cases hd : s.desc = f.getDescriptor t <;> simp [Fn.target, hd]
  · intro u
    simp [Fam.getDescriptor]
  · intro u hu hne
    simp [Fn.target, hu, Fam.getDescriptor, hne]
  · intro u
    rcases s with ⟨d, b⟩
    cases d with
    | none =>
      simp [Fn.moveCtor, Desc.moveOp, Fn.target, Storage.empty,
            Fam.getDescriptor]
    | some w =>
      by_cases hf : f.fits w <;>
        simp [Fn.moveCtor, Desc.moveOp, Desc.destroyOp, Fn.target,
              Fam.getDescriptor, hf]
  · simp [Fn.target, Storage.empty, Fam.getDescriptor]

/-- C6 witness: a container holding the small concrete type reports a
present target at that type and a null target at the other type. -/
theorem c6_witness :
    (Fn.target ([] : demoFam.Heap)
      ({ desc := some true, buf := Buf.inl true 5 } : Storage demoFam)
      true).isSome = true ∧
    Fn.target ([] : demoFam.Heap)
      ({ desc := some true, buf := Buf.inl true 5 } : Storage demoFam)
      false = none := by
  refine ⟨?_, ?_⟩
  · exact (c6_target_identity demoFam []
      { desc := some true, buf := Buf.inl true 5 } true).1.mpr rfl
  · exact (c6_target_identity demoFam []
      { desc := some true, buf := Buf.inl true 5 } false).2.2.1 true rfl
      (by decide)

/-- C7: Swap symmetry: function::swap never fails (it is a total
function built from the nonfailing move entries), leaves the heap
untouched, and the two containers exchange invocation results, boolean
state and targets, in every combination of empty, small and heap
states. -/
theorem c7_swap_symmetry (f : Fam Arg R) (h : f.Heap) (a b : Storage f)
    (ha : a.WF h) (hb : b.WF h) :
    (Fn.swapFn h a b).2.2 = h ∧
    (∀ x : Arg, (Storage.apply h (Fn.swapFn h a b).1 x).1 =
      (Storage.apply h b x).1) ∧
    (∀ x : Arg, (Storage.apply h (Fn.swapFn h a b).2.1 x).1 =
      (Storage.apply h a x).1) ∧
    Fn.toBool (Fn.swapFn h a b).1 = Fn.toBool b ∧
    Fn.toBool (Fn.swapFn h a b).2.1 = Fn.toBool a ∧
    (∀ t : f.Ty, Fn.target h (Fn.swapFn h a b).1 t = Fn.target h b t) ∧
    (∀ t : f.Ty, Fn.target h (Fn.swapFn h a b).2.1 t = Fn.target h a t) := by
  obtain ⟨e, v1, w1, o1, v2, w2, o2⟩ := swapOp_spec h a b ha hb
  simp only [Fn.swapFn]
  refine ⟨e, ?_, ?_, ?_, ?_, ?_, ?_⟩
  · intro x
    rw [Storage.apply_fst, Storage.apply_fst, v1]
  · intro x
    rw [Storage.apply_fst, Storage.apply_fst, v2]
  · rw [Fn.toBool_eq h, Fn.toBool_eq h, v1]
  · rw [Fn.toBool_eq h, Fn.toBool_eq h, v2]
  · intro t
    rw [Fn.target_eq, Fn.target_eq, v1]
  · intro t
    rw [Fn.target_eq, Fn.target_eq, v2]

/-- C7 witness: swapping a small-holding container with a heap-holding
container makes the first behave as the second did. -/
theorem c7_witness :
    (Storage.apply [some (false, 5)]
        (Fn.swapFn [some (false, 5)]
          ({ desc := some true, buf := Buf.inl true 2 } : Storage demoFam)
          { desc := some false, buf := Buf.addr 0 }).1 3).1 =
      (Storage.apply [some (false, 5)]
        ({ desc := some false, buf := Buf.addr 0 } : Storage demoFam) 3).1 :=
  (c7_swap_symmetry demoFam [some (false, 5)]
    { desc := some true, buf := Buf.inl true 2 }
    { desc := some false, buf := Buf.addr 0 }
    ⟨2, rfl⟩ ⟨0, rfl, 5, rfl⟩).2.1 3

/-- C8: Copy-assignment strong exception safety: operator= copies into a
temporary before any swap, so when the payload copy step fails the very
same error escapes, the heap is unchanged, and (the assigned-to container
not having been touched by the failed operation) it keeps its original
callable. -/
theorem c8_copy_assign_strong_safety (f : Fam Arg R) (h : f.Heap)
    (self other : Storage f) (t : f.Ty) (e : f.Err)
    (hd : other.desc = f.getDescriptor t)
    (hfail : f.copyFails t (Storage.payload h other t) = some e) :
    Fn.assignCopy h self other = Except.error (e, h) ∧
    (∀ e2 : f.Err, ∀ h2 : f.Heap,
      Fn.assignCopy h self other = Except.error (e2, h2) →
      h2 = h ∧ e2 = e) := by
  have hcc : Fn.copyCtor h other = Except.error (e, h) := by
    by_cases hf : f.fits t
    · simp only [Storage.payload, hf, if_true] at hfail
      simp [Fn.copyCtor, Desc.copyOp, hd, Fam.getDescriptor, hf, hfail]
    · simp [Storage.payload, hf] at hfail
      simp [Fn.copyCtor, Desc.copyOp, hd, Fam.getDescriptor, hf, hfail]
  have h1 : Fn.assignCopy h self other = Except.error (e, h) := by
    simp [Fn.assignCopy, hcc]
  refine ⟨h1, ?_⟩
  intro e2 h2 h3
  rw [h1] at h3
  injection h3 with h4
  injection h4 with h5 h6
  exact ⟨h6.symm, h5.symm⟩

/-- C8 witness: assigning from a container whose payload copy throws the
error 7 yields exactly that error with the heap unchanged. -/
theorem c8_witness :
    Fn.assignCopy ([] : failFam.Heap) Storage.empty
      { desc := some (), buf := Buf.inl () 3 } = Except.error (7, []) :=
  (c8_copy_assign_strong_safety failFam [] Storage.empty
    { desc := some (), buf := Buf.inl () 3 } () 7 rfl rfl).1

/-- C9: Self-assignment safety: operator= compares this against the
address of the operand and short-circuits, so self copy-assignment and
self move-assignment return the container unchanged, with identical
invocation results. -/
theorem c9_self_assignment (f : Fam Arg R) (h : f.Heap) (c : Storage f)
    (_hne : Fn.toBool c = true) :
    Fn.assignCopyChecked true h c c = Except.ok (c, h) ∧
    Fn.assignMoveChecked true h c c = (c, c, h) ∧
    (∀ a : Arg, ∀ s2 : Storage f, ∀ h2 : f.Heap,
      Fn.assignCopyChecked true h c c = Except.ok (s2, h2) →
      (Storage.apply h2 s2 a).1 = (Storage.apply h c a).1) := by
  refine ⟨rfl, rfl, ?_⟩
  intro a s2 h2 hassign
  simp only [Fn.assignCopyChecked, if_true] at hassign
  simp only [Except.ok.injEq, Prod.mk.injEq] at hassign
  obtain ⟨rfl, rfl⟩ := hassign
  rfl

/-- C9 witness: self copy-assignment of a non-empty small container
returns it unchanged. -/
theorem c9_witness :
    Fn.assignCopyChecked true ([] : demoFam.Heap)
      { desc := some true, buf := Buf.inl true 5 }
      { desc := some true, buf := Buf.inl true 5 } =
      Except.ok ({ desc := some true, buf := Buf.inl true 5 }, []) :=
  (c9_self_assignment demoFam []
    { desc := some true, buf := Buf.inl true 5 } rfl).1

/-- C10: Self-swap identity: storage::swap performs no self check; on
aliased operands the three-move sequence empties the container into the
temporary, performs an empty-to-empty noop on the aliased middle move,
and restores the payload from the temporary, leaving the container and
the heap exactly as they were, in every state (empty, small, heap). -/
theorem c10_self_swap (f : Fam Arg R) (h : f.Heap) (s : Storage f)
    (hwf : s.WF h) : Storage.swapSelf h s = (s, h) := by
  rcases s with ⟨d, b⟩
  cases d with
  | none => rfl
  | some t =>
    by_cases hf : f.fits t
    · simp only [Storage.WF, hf, if_true] at hwf
      obtain ⟨v, rfl⟩ := hwf
      simp [Storage.swapSelf, Desc.moveOp, Desc.moveAliasedOp,
            Desc.destroyOp, Storage.readSmall, Storage.readAddr, hf]
    · simp only [Storage.WF, hf] at hwf
      obtain ⟨a, rfl, v, hc⟩ := hwf
      simp [Storage.swapSelf, Desc.moveOp, Desc.moveAliasedOp,
            Desc.destroyOp, Storage.readSmall, Storage.readAddr, hf]

/-- C10 witness: self-swap of a small-holding container returns it and
the heap unchanged. -/
theorem c10_witness :
    Storage.swapSelf ([] : demoFam.Heap)
      { desc := some true, buf := Buf.inl true 5 } =
      ({ desc := some true, buf := Buf.inl true 5 }, []) :=
  c10_self_swap demoFam [] { desc := some true, buf := Buf.inl true 5 }
    ⟨5, rfl⟩

end FunctionSpec
